import Mathlib

/-!
Verification of the per-user transaction ledger of `app.py` (personal
finance tracker).  The data model and every operation below are shallow
embeddings of the corresponding Flask route handlers and SQLAlchemy
queries; SQLite REAL amounts are modelled as exact rationals, and dates
as year/month/day triples (SQLite stores them as ISO `YYYY-MM-DD` text,
whose lexicographic order coincides with the order of the numeric
triples for valid calendar dates).
-/

namespace FinanceApp

/-- Calendar date, mirroring the `db.Date` column of `Transaction.date`. -/
structure Date where
  year : Nat
  month : Nat
  day : Nat
deriving DecidableEq

/-- Row of the `category` table (`class Category` in app.py). -/
structure Category where
  id : Nat
  name : String
  user_id : Nat
deriving DecidableEq

/-- Row of the `transaction` table (`class Transaction` in app.py).
`amount` is the REAL column modelled as a rational; `type` is the string
column holding "income" or "expense"; `description` and `category_id`
are nullable columns. -/
structure Transaction where
  id : Nat
  amount : ℚ
  type : String
  description : Option String
  date : Date
  category_id : Option Nat
  user_id : Nat
deriving DecidableEq

/-- Database state: the two per-user tables the ledger routes touch. -/
structure Db where
  categories : List Category
  transactions : List Transaction
deriving DecidableEq

/-- Rows of `Transaction.query.filter_by(user_id=uid)`. -/
def user_transactions (db : Db) (uid : Nat) : List Transaction :=
  db.transactions.filter (fun t => t.user_id == uid)

/-- Rows of `Category.query.filter_by(user_id=uid)`. -/
def user_categories (db : Db) (uid : Nat) : List Category :=
  db.categories.filter (fun c => c.user_id == uid)

/-- SQL `SUM(...)` over a column: NULL (`none`) on an empty row set,
otherwise the sum of the values. -/
def sql_sum (l : List ℚ) : Option ℚ :=
  match l with
  | [] => none
  | _ :: _ => some l.sum

/-- Python `x or 0` applied to the `scalar()` of a SUM query: `None`
becomes 0 (a 0 sum stays 0 either way). -/
def or0 (x : Option ℚ) : ℚ := x.getD 0

/-- Income total of the dashboard route:
`db.session.query(func.sum(Transaction.amount)).filter_by(user_id=..., type='income').scalar() or 0`. -/
def dashboard_income (db : Db) (uid : Nat) : ℚ :=
  or0 (sql_sum (((db.transactions.filter
    (fun t => t.user_id == uid && t.type == "income")).map Transaction.amount)))

/-- Expense total of the dashboard route, analogous to `dashboard_income`. -/
def dashboard_expense (db : Db) (uid : Nat) : ℚ :=
  or0 (sql_sum (((db.transactions.filter
    (fun t => t.user_id == uid && t.type == "expense")).map Transaction.amount)))

/-- Dashboard `balance = income - expense`. -/
def dashboard_balance (db : Db) (uid : Nat) : ℚ :=
  dashboard_income db uid - dashboard_expense db uid

theorem or0_sql_sum (l : List ℚ) : or0 (sql_sum l) = l.sum := by
  cases l with
  | nil => rfl
  | cons a l => rfl

/-- C2: dashboard totals are the ledger sums and balance is their
difference.  `totals(U).income` is the sum of `amount` over U's
transactions of type "income" (0 when there are none, because the sum
of the empty list is 0), analogously for "expense", and
`balance(U) = totals(U).income - totals(U).expense`. -/
theorem totals_sum_and_balance (db : Db) (uid : Nat) :
    dashboard_income db uid =
      ((db.transactions.filter
        (fun t => t.user_id == uid && t.type == "income")).map Transaction.amount).sum ∧
    dashboard_expense db uid =
      ((db.transactions.filter
        (fun t => t.user_id == uid && t.type == "expense")).map Transaction.amount).sum ∧
    dashboard_balance db uid = dashboard_income db uid - dashboard_expense db uid := by
  refine ⟨?_, ?_, rfl⟩
  · exact or0_sql_sum _
  · exact or0_sql_sum _

/-- Witness instance for C2: the dashboard equations at a concrete
one-transaction ledger. -/
def db_dash : Db :=
  { categories := [],
    transactions := [
      { id := 1, amount := 11, type := "income", description := none,
        date := { year := 2024, month := 2, day := 5 },
        category_id := none, user_id := 1 }] }

/-- Witness for C2: the balance equation evaluated on `db_dash`. -/
theorem totals_sum_and_balance_witness :
    dashboard_balance db_dash 1 = dashboard_income db_dash 1 - dashboard_expense db_dash 1 :=
  (totals_sum_and_balance db_dash 1).2.2

/-- Result of a route handler that may `first_or_404`: `ok` carries the
database state after the handler ran, `notFound` is the 404 response
(flask's `abort(404)`), which leaves the database unchanged. -/
inductive Response (α : Type) where
  | ok : α → Response α
  | notFound : Response α
deriving DecidableEq

/-- SQLite rowid allocation for an INTEGER PRIMARY KEY column: the new
row gets one more than the largest id currently in the table (ids of
deleted rows can therefore be reused). -/
def next_id (ids : List Nat) : Nat := ids.foldr max 0 + 1

/-- ORM relationship `t.category`: the category row whose primary key
equals `t.category_id`, if any (a dangling or NULL reference resolves to
`none`). -/
def resolve_category (db : Db) (t : Transaction) : Option Category :=
  match t.category_id with
  | none => none
  | some cid => db.categories.find? (fun c => c.id == cid)

/-- Lookup `Transaction.query.filter_by(id=tx_id, user_id=current_user.id).first()`,
the query behind `first_or_404` in the edit and delete routes. -/
def get_transaction (db : Db) (uid tid : Nat) : Option Transaction :=
  db.transactions.find? (fun t => t.id == tid && t.user_id == uid)

/-- Lookup `Category.query.filter_by(id=cat_id, user_id=current_user.id).first()`. -/
def get_category (db : Db) (uid cid : Nat) : Option Category :=
  db.categories.find? (fun c => c.id == cid && c.user_id == uid)

/-- Data of a submitted `TransactionForm`.  `amount` is the FloatField's
coerced value (`none` when coercion failed or the field was missing);
`category` is the SelectField's integer value. -/
structure TransactionForm where
  amount : Option ℚ
  type : String
  category : Nat
  date : Date
  description : String
deriving DecidableEq

/-- Data of a submitted `CategoryForm`. -/
structure CategoryForm where
  name : String
deriving DecidableEq

/-- WTForms `DataRequired` on a FloatField: fails when the coerced data
is missing (`None`) or falsy — and the float `0.0` is falsy in Python,
so an amount of exactly 0 is rejected while any nonzero value passes. -/
def data_required_float (x : Option ℚ) : Bool :=
  match x with
  | none => false
  | some v => v != 0

/-- Validation of `TransactionForm` as configured by the add/edit
routes: `amount` passes `DataRequired`, `type` is one of the two
SelectField choices, and `category` is among the choices the route set,
namely the ids of the caller's own categories. -/
def transaction_form_valid (db : Db) (uid : Nat) (f : TransactionForm) : Bool :=
  data_required_float f.amount
    && (f.type == "expense" || f.type == "income")
    && (user_categories db uid).any (fun c => c.id == f.category)

/-- ASCII whitespace, as stripped by Python's `str.strip`. -/
def is_ws (c : Char) : Bool := c == ' ' || c == '\t' || c == '\n' || c == '\r'

/-- Validation of `CategoryForm`: `DataRequired` (the name must not be
empty or all-whitespace, i.e. `strip()` must be non-empty) and
`Length(1,64)` on the name. -/
def category_form_valid (f : CategoryForm) : Bool :=
  !(f.name.data.all is_ws) && (1 ≤ f.name.length && f.name.length ≤ 64)

/-- Route `add_transaction`: on a valid submission insert a new row with
the form's fields, the caller as owner, and a fresh rowid; otherwise the
database is unchanged (the form is re-rendered). -/
def add_transaction (db : Db) (uid : Nat) (f : TransactionForm) : Db :=
  if transaction_form_valid db uid f then
    { db with transactions := db.transactions ++
      [{ id := next_id (db.transactions.map Transaction.id),
         amount := f.amount.getD 0,
         type := f.type,
         description := some f.description,
         date := f.date,
         category_id := if f.category != 0 then some f.category else none,
         user_id := uid }] }
  else db

/-- Route `edit_transaction`: `first_or_404` on (id, owner), then on a
valid submission overwrite the row's fields in place. -/
def edit_transaction (db : Db) (uid tid : Nat) (f : TransactionForm) : Response Db :=
  match get_transaction db uid tid with
  | none => Response.notFound
  | some _ =>
    Response.ok (if transaction_form_valid db uid f then
      { db with transactions := db.transactions.map (fun u =>
          if u.id == tid && u.user_id == uid then
            { u with amount := f.amount.getD 0,
                     type := f.type,
                     description := some f.description,
                     date := f.date,
                     category_id := if f.category != 0 then some f.category else none }
          else u) }
    else db)

/-- Route `delete_transaction`: `first_or_404` on (id, owner), then
delete the row. -/
def delete_transaction (db : Db) (uid tid : Nat) : Response Db :=
  match get_transaction db uid tid with
  | none => Response.notFound
  | some t =>
    Response.ok { db with transactions :=
      db.transactions.filter (fun u => u.id != t.id) }

/-- Route `add_category`: on a valid submission insert a category named
by the form, owned by the caller, with a fresh rowid. -/
def add_category (db : Db) (uid : Nat) (f : CategoryForm) : Db :=
  if category_form_valid f then
    { db with categories := db.categories ++
      [{ id := next_id (db.categories.map Category.id),
         name := f.name,
         user_id := uid }] }
  else db

/-- Route `edit_category`: `first_or_404` on (id, owner), then on a
valid submission overwrite the name. -/
def edit_category (db : Db) (uid cid : Nat) (f : CategoryForm) : Response Db :=
  match get_category db uid cid with
  | none => Response.notFound
  | some _ =>
    Response.ok (if category_form_valid f then
      { db with categories := db.categories.map (fun c =>
          if c.id == cid && c.user_id == uid then { c with name := f.name } else c) }
    else db)

/-- Route `delete_category`: `first_or_404` on (id, owner), then
`db.session.delete(c)`.  The `Category.transactions` relationship has no
delete cascade, so SQLAlchemy's default behaviour on deleting the parent
is to load the referencing transactions and null out their foreign key
at flush: every transaction whose `category_id` equals the deleted id
has it set to NULL, and then the category row is removed. -/
def delete_category (db : Db) (uid cid : Nat) : Response Db :=
  match get_category db uid cid with
  | none => Response.notFound
  | some c =>
    Response.ok
      { categories := db.categories.filter (fun u => u.id != c.id),
        transactions := db.transactions.map (fun t =>
          if t.category_id == some c.id then { t with category_id := none } else t) }

/-- Numeric key whose order is the order of the stored ISO date text
`YYYY-MM-DD` (lexicographic on zero-padded text equals numeric order of
this key for valid calendar dates). -/
def Date.key (d : Date) : Nat := (d.year * 100 + d.month) * 100 + d.day

/-- Comparator of `order_by(Transaction.date.desc())`. -/
def date_desc (a b : Transaction) : Prop := Date.key b.date ≤ Date.key a.date

instance : DecidableRel date_desc := fun a b => Nat.decLe (Date.key b.date) (Date.key a.date)

instance : IsTotal Transaction date_desc :=
  ⟨fun a b => Nat.le_total (Date.key b.date) (Date.key a.date)⟩

instance : IsTrans Transaction date_desc :=
  ⟨fun _ _ _ h1 h2 => Nat.le_trans h2 h1⟩

/-- The `ORDER BY date DESC` step of the listing, dashboard and export
queries.  SQLite scans the table in rowid (insertion) order and the
sort is modelled as a stable sort, so ties on the date keep insertion
order — the implementation-stable secondary key. -/
def order_by_date_desc (l : List Transaction) : List Transaction :=
  l.insertionSort date_desc

/-- Matching of a pattern that starts with `%`: the wildcard absorbs
any (possibly empty) prefix of the text and the rest of the pattern
(matched by `f`) must match some suffix. -/
def pctHelper (f : List Char → Bool) : List Char → Bool
  | [] => f []
  | c :: t => f (c :: t) || pctHelper f t

/-- SQL LIKE matching with case-insensitive character comparison: `%`
matches any sequence, `_` matches any single character, any other
pattern character matches a text character with the same lowercase.
This models SQLAlchemy's `ilike`, which compares both sides
case-insensitively. -/
def like_ci : List Char → List Char → Bool
  | [], t => t.isEmpty
  | a :: p, t =>
    if a = '%' then pctHelper (like_ci p) t
    else
      match t with
      | [] => false
      | c :: t2 =>
        if a = '_' then like_ci p t2
        else (a.toLower == c.toLower) && like_ci p t2

/-- Pattern the route builds from the search term: `%` + q + `%`
(the f-string interpolation puts the raw term between two wildcards). -/
def search_pattern (q : String) : List Char := '%' :: (q.data ++ ['%'])

/-- One disjunct of the route's filter:
`Transaction.description.ilike(...)` — SQL NULL never matches. -/
def description_matches (q : String) (t : Transaction) : Bool :=
  match t.description with
  | none => false
  | some d => like_ci (search_pattern q) d.data

/-- The route's three-way `or_` filter after the outer join to
`Category`: description ILIKE, type ILIKE, or joined category name
ILIKE (a transaction whose reference is NULL or dangling joins to a
NULL name, which never matches). -/
def matches_search (db : Db) (q : String) (t : Transaction) : Bool :=
  description_matches q t
    || like_ci (search_pattern q) t.type.data
    || (match resolve_category db t with
        | none => false
        | some c => like_ci (search_pattern q) c.name.data)

/-- Conditional filter step of the listing route: the stripped search
term is applied only when non-empty. -/
def search_filter (db : Db) (q : String) (l : List Transaction) : List Transaction :=
  if q == "" then l else l.filter (matches_search db q)

/-- Page object returned by flask-sqlalchemy's `paginate`. -/
structure Pagination where
  items : List Transaction
  page : Nat
  per_page : Nat
  total : Nat
deriving DecidableEq

/-- flask-sqlalchemy `paginate(page=page, per_page=per_page)` with the
default `error_out=True`: a page number below 1 aborts with 404, the
items are the `per_page`-sized slice at offset `(page-1)*per_page`, and
an empty slice on any page other than 1 also aborts with 404; `total`
counts the whole filtered result set. -/
def paginate (l : List Transaction) (page per_page : Nat) : Option Pagination :=
  if page < 1 then none
  else
    let items := (l.drop ((page - 1) * per_page)).take per_page
    if items.isEmpty && page != 1 then none
    else some { items := items, page := page, per_page := per_page, total := l.length }

/-- Route `transactions` (the listing): ownership scope, optional
search filter, `ORDER BY date DESC`, then `paginate(page, per_page=20)`.
`q` is the already-stripped search term. -/
def transactions_route (db : Db) (uid : Nat) (page : Nat) (q : String) :
    Option Pagination :=
  paginate (order_by_date_desc (search_filter db q (user_transactions db uid))) page 20

/-- Month key of `strftime('%Y-%m', date)`: equality and order of the
`YYYY-MM` strings coincide with those of this number for valid dates. -/
def ym (d : Date) : Nat := d.year * 100 + d.month

/-- CASE expression `case((type == 'income', amount), else_=0)`. -/
def income_case (t : Transaction) : ℚ := if t.type == "income" then t.amount else 0

/-- CASE expression `case((type == 'expense', amount), else_=0)`. -/
def expense_case (t : Transaction) : ℚ := if t.type == "expense" then t.amount else 0

/-- Route `api_summary`: group the caller's transactions by the
`strftime('%Y-%m', date)` key, ascending, and sum the two CASE columns
per group (`r.income or 0` only turns a NULL sum into 0; every group is
non-empty so its CASE sums are already non-NULL). -/
def api_summary (db : Db) (uid : Nat) : List (Nat × ℚ × ℚ) :=
  let txs := db.transactions.filter (fun t => t.user_id == uid)
  let keys := ((txs.map (fun t => ym t.date)).dedup).insertionSort (fun a b => a ≤ b)
  keys.map (fun k =>
    let g := txs.filter (fun t => ym t.date == k)
    (k, (g.map income_case).sum, (g.map expense_case).sum))

/-- Zero-pad a number to two digits, as `isoformat`/`strftime` do for
months and days. -/
def pad2 (n : Nat) : String := if n < 10 then "0" ++ toString n else toString n

/-- Zero-pad a year to four digits. -/
def pad4 (n : Nat) : String :=
  if n < 10 then "000" ++ toString n
  else if n < 100 then "00" ++ toString n
  else if n < 1000 then "0" ++ toString n
  else toString n

/-- Python `date.isoformat()`: `YYYY-MM-DD`. -/
def Date.isoformat (d : Date) : String :=
  pad4 d.year ++ "-" ++ pad2 d.month ++ "-" ++ pad2 d.day

/-- One `writerow` of the CSV export, as the list of its five cells:
ISO date, type, amount (rendered by Python's float formatting, which is
external — the claims do not constrain it, so it is a parameter
`showAmount`), the resolved category's name or the empty string, and
`description or ''`. -/
def csv_row (db : Db) (showAmount : ℚ → String) (t : Transaction) : List String :=
  [Date.isoformat t.date, t.type, showAmount t.amount,
   ((resolve_category db t).map Category.name).getD "",
   t.description.getD ""]

/-- Route `export_csv` as the list of rows handed to `csv.writer`: the
header row, then one row per transaction of the caller's full ledger in
`ORDER BY date DESC` order — no filter or pagination parameter exists
on this route. -/
def export_csv (db : Db) (showAmount : ℚ → String) (uid : Nat) : List (List String) :=
  ["Date", "Type", "Amount", "Category", "Description"] ::
    (order_by_date_desc (user_transactions db uid)).map (csv_row db showAmount)

theorem get_transaction_none (db : Db) (uid tid : Nat)
    (h : ∀ t ∈ db.transactions, t.id = tid → t.user_id ≠ uid) :
    get_transaction db uid tid = none := by
  unfold get_transaction
  rw [List.find?_eq_none]
  intro t ht
  simp only [Bool.and_eq_true, beq_iff_eq, not_and]
  intro h1 h2
  exact h t ht h1 h2

theorem get_category_none (db : Db) (uid cid : Nat)
    (h : ∀ c ∈ db.categories, c.id = cid → c.user_id ≠ uid) :
    get_category db uid cid = none := by
  unfold get_category
  rw [List.find?_eq_none]
  intro c hc
  simp only [Bool.and_eq_true, beq_iff_eq, not_and]
  intro h1 h2
  exact h c hc h1 h2

/-- C1: ownership isolation without existence leak.  If no transaction
(resp. category) with the target id is owned by the caller — whether the
id is absent from the table altogether or belongs to another user — then
retrieve, update and delete all answer 404 (`none` / `notFound`), and
the response at two such ids is identical, so the caller cannot tell an
absent id from another user's id. -/
theorem ownership_isolation (db : Db) (uid tid tid' cid cid' : Nat)
    (f : TransactionForm) (g : CategoryForm)
    (ht : ∀ t ∈ db.transactions, t.id = tid → t.user_id ≠ uid)
    (ht' : ∀ t ∈ db.transactions, t.id = tid' → t.user_id ≠ uid)
    (hc : ∀ c ∈ db.categories, c.id = cid → c.user_id ≠ uid)
    (hc' : ∀ c ∈ db.categories, c.id = cid' → c.user_id ≠ uid) :
    get_transaction db uid tid = none ∧
    edit_transaction db uid tid f = Response.notFound ∧
    delete_transaction db uid tid = Response.notFound ∧
    edit_category db uid cid g = Response.notFound ∧
    delete_category db uid cid = Response.notFound ∧
    get_transaction db uid tid = get_transaction db uid tid' ∧
    edit_transaction db uid tid f = edit_transaction db uid tid' f ∧
    delete_transaction db uid tid = delete_transaction db uid tid' ∧
    edit_category db uid cid g = edit_category db uid cid' g ∧
    delete_category db uid cid = delete_category db uid cid' := by
  have h1 := get_transaction_none db uid tid ht
  have h1' := get_transaction_none db uid tid' ht'
  have h2 := get_category_none db uid cid hc
  have h2' := get_category_none db uid cid' hc'
  refine ⟨h1, ?_, ?_, ?_, ?_, ?_, ?_, ?_, ?_, ?_⟩ <;>
    simp [edit_transaction, delete_transaction, edit_category, delete_category,
      h1, h1', h2, h2']

/-- Database for the isolation witness: user 2 owns transaction 1 and
category 1; user 1 owns nothing. -/
def db_iso : Db :=
  { categories := [{ id := 1, name := "Food", user_id := 2 }],
    transactions := [
      { id := 1, amount := 5, type := "expense", description := none,
        date := { year := 2024, month := 1, day := 2 },
        category_id := some 1, user_id := 2 }] }

/-- Form values used by witnesses. -/
def form_w : TransactionForm :=
  { amount := some 3, type := "expense", category := 0,
    date := { year := 2024, month := 2, day := 3 }, description := "x" }

/-- Category form used by witnesses. -/
def cat_form_w : CategoryForm := { name := "n" }

/-- Witness for C1: user 1 probes transaction id 1 and category id 1
(both owned by user 2) and ids 99 (absent); every operation answers 404
and the responses at the two kinds of id coincide. -/
theorem ownership_isolation_witness :
    get_transaction db_iso 1 1 = none ∧
    edit_transaction db_iso 1 1 form_w = Response.notFound ∧
    delete_transaction db_iso 1 1 = Response.notFound ∧
    edit_category db_iso 1 1 cat_form_w = Response.notFound ∧
    delete_category db_iso 1 1 = Response.notFound ∧
    get_transaction db_iso 1 1 = get_transaction db_iso 1 99 ∧
    edit_transaction db_iso 1 1 form_w = edit_transaction db_iso 1 99 form_w ∧
    delete_transaction db_iso 1 1 = delete_transaction db_iso 1 99 ∧
    edit_category db_iso 1 1 cat_form_w = edit_category db_iso 1 99 cat_form_w ∧
    delete_category db_iso 1 1 = delete_category db_iso 1 99 :=
  ownership_isolation db_iso 1 1 99 1 99 form_w cat_form_w
    (by decide) (by decide) (by decide) (by decide)

/-- Ledger for the amount-validation counterexample: user 1 owns one
category (so the SelectField has a choice) and no transactions yet. -/
def db_c4 : Db :=
  { categories := [{ id := 1, name := "Food", user_id := 1 }],
    transactions := [] }

/-- Form submitting a negative amount. -/
def form_neg : TransactionForm :=
  { amount := some (-5), type := "expense", category := 1,
    date := { year := 2024, month := 1, day := 2 }, description := "oops" }

/-- Form submitting a zero amount. -/
def form_zero : TransactionForm :=
  { amount := some 0, type := "expense", category := 1,
    date := { year := 2024, month := 1, day := 2 }, description := "z" }

/-- Counterexample to C4 as stated: a create attempt with the negative
amount -5 passes validation and a transaction with amount -5 < 0 is
created — `TransactionForm` has no positivity validator, only
`DataRequired`, which merely rejects falsy values. -/
theorem amount_validation_cex :
    transaction_form_valid db_c4 1 form_neg = true ∧
    (add_transaction db_c4 1 form_neg).transactions.map Transaction.amount = [(-5 : ℚ)] ∧
    ((-5 : ℚ) < 0) = True := by
  refine ⟨by decide, by decide, by simp⟩

theorem data_required_float_spec (x : Option ℚ) :
    data_required_float x = true ↔ ∃ v, x = some v ∧ v ≠ 0 := by
  cases x with
  | none => simp [data_required_float]
  | some v => simp [data_required_float]

/-- C4 amended: the create form rejects a missing or zero amount (the
`DataRequired` validator treats the float 0.0 as missing), so no
transaction is created in that case, and every transaction present
after a create either was already there or has a nonzero — though not
necessarily positive — amount. -/
theorem amount_nonzero_enforced (db : Db) (uid : Nat) (f : TransactionForm) :
    (f.amount = none ∨ f.amount = some 0 → add_transaction db uid f = db) ∧
    (∀ t ∈ (add_transaction db uid f).transactions,
      t ∈ db.transactions ∨ t.amount ≠ 0) := by
  constructor
  · intro ham
    have hreq : data_required_float f.amount = false := by
      rcases ham with h | h <;> simp [data_required_float, h]
    simp [add_transaction, transaction_form_valid, hreq]
  · intro t ht
    by_cases hv : transaction_form_valid db uid f = true
    · rw [add_transaction, if_pos hv] at ht
      rcases List.mem_append.mp ht with h | h
      · exact Or.inl h
      · right
        have hreq : data_required_float f.amount = true := by
          have := hv
          unfold transaction_form_valid at this
          exact (Bool.and_eq_true _ _).mp ((Bool.and_eq_true _ _).mp this).1 |>.1
        rcases (data_required_float_spec f.amount).mp hreq with ⟨v, hveq, hvne⟩
        have heq := List.mem_singleton.mp h
        rw [heq]
        simpa [hveq] using hvne
    · rw [add_transaction, if_neg hv] at ht
      exact Or.inl ht

/-- Witness for the amended C4: submitting a zero amount leaves the
ledger unchanged. -/
theorem amount_nonzero_enforced_witness :
    add_transaction db_c4 1 form_zero = db_c4 :=
  (amount_nonzero_enforced db_c4 1 form_zero).1 (Or.inr rfl)

theorem forall2_of_map {α β : Type} (g : α → β) (P : α → β → Prop)
    (h : ∀ a, P a (g a)) : ∀ l : List α, List.Forall₂ P l (l.map g) := by
  intro l
  induction l with
  | nil => exact List.Forall₂.nil
  | cons a l ih => exact List.Forall₂.cons (h a) ih

/-- C9: deleting a category that existing transactions reference is not
blocked — whenever the caller owns a category with the target id, the
delete succeeds (also, in particular, when some transaction references
it).  No transaction is deleted: each original row survives, in order,
with every field except the category reference unchanged; a row that
referenced the deleted id has its reference nulled by the ORM and
afterwards reads as having no category (`resolve_category` is `none`,
not an error), while any other reference is untouched. -/
theorem category_delete_dangling (db : Db) (uid cid : Nat)
    (hown : ∃ c ∈ db.categories, c.id = cid ∧ c.user_id = uid)
    (href : ∃ t ∈ db.transactions, t.category_id = some cid) :
    ∃ db2, delete_category db uid cid = Response.ok db2 ∧
      db2.transactions.length = db.transactions.length ∧
      List.Forall₂ (fun t t2 =>
        t2.id = t.id ∧ t2.amount = t.amount ∧ t2.type = t.type ∧
        t2.description = t.description ∧ t2.date = t.date ∧
        t2.user_id = t.user_id ∧
        (t.category_id = some cid →
          t2.category_id = none ∧ resolve_category db2 t2 = none) ∧
        (t.category_id ≠ some cid → t2.category_id = t.category_id))
        db.transactions db2.transactions := by
  rcases hown with ⟨c0, hc0mem, hc0id, hc0uid⟩
  cases hfind : get_category db uid cid with
  | none =>
    exfalso
    rw [get_category, List.find?_eq_none] at hfind
    have := hfind c0 hc0mem
    simp [hc0id, hc0uid] at this
  | some c1 =>
    have hp := List.find?_some hfind
    have hc1id : c1.id = cid := by
      have h2 := (Bool.and_eq_true _ _).mp hp
      exact beq_iff_eq.mp h2.1
    refine ⟨{ categories := db.categories.filter (fun u => u.id != c1.id),
              transactions := db.transactions.map (fun t =>
                if t.category_id == some c1.id then
                  { t with category_id := none } else t) },
            ?_, ?_, ?_⟩
    · rw [delete_category, hfind]
    · simp
    · refine forall2_of_map _ _ ?_ db.transactions
      intro t
      by_cases hc : (t.category_id == some c1.id) = true
      · rw [if_pos hc]
        refine ⟨rfl, rfl, rfl, rfl, rfl, rfl, ?_, ?_⟩
        · intro _
          exact ⟨rfl, rfl⟩
        · intro hne
          exact absurd (by rw [← hc1id]; exact beq_iff_eq.mp hc) hne
      · rw [if_neg hc]
        refine ⟨rfl, rfl, rfl, rfl, rfl, rfl, ?_, fun _ => rfl⟩
        intro heq
        exfalso
        apply hc
        rw [heq, hc1id]
        simp

/-- Ledger for the C9 witness: user 1 owns category 1 and a transaction
referencing it. -/
def db_c9 : Db :=
  { categories := [{ id := 1, name := "Food", user_id := 1 }],
    transactions := [
      { id := 1, amount := 7, type := "expense", description := some "lunch",
        date := { year := 2024, month := 1, day := 2 },
        category_id := some 1, user_id := 1 }] }

/-- Witness for C9 at a concrete ledger. -/
theorem category_delete_dangling_witness :
    ∃ db2, delete_category db_c9 1 1 = Response.ok db2 ∧
      db2.transactions.length = db_c9.transactions.length ∧
      List.Forall₂ (fun t t2 =>
        t2.id = t.id ∧ t2.amount = t.amount ∧ t2.type = t.type ∧
        t2.description = t.description ∧ t2.date = t.date ∧
        t2.user_id = t.user_id ∧
        (t.category_id = some 1 →
          t2.category_id = none ∧ resolve_category db2 t2 = none) ∧
        (t.category_id ≠ some 1 → t2.category_id = t.category_id))
        db_c9.transactions db2.transactions :=
  category_delete_dangling db_c9 1 1 (by decide) (by decide)

/-- Ledger for the pagination counterexample: user 1 owns exactly one
transaction, so page 1 is the last page. -/
def db_c7 : Db :=
  { categories := [],
    transactions := [
      { id := 1, amount := 3, type := "income", description := none,
        date := { year := 2024, month := 1, day := 2 },
        category_id := none, user_id := 1 }] }

/-- Counterexample to C7 as stated: with a single transaction,
requesting page 2 of the listing does not return an empty page — it
fails with a 404 error, because flask-sqlalchemy's `paginate` is called
with its default `error_out=True` and aborts on an empty page other
than page 1. -/
theorem page_beyond_cex : transactions_route db_c7 1 2 "" = none := by decide

/-- C7 amended: the listing's `page` parameter is 1-indexed (page 1
returns the first 20 results of the ordering and the full count), but a
page strictly beyond the last page of the filtered result set aborts
with a 404 error instead of returning an empty page. -/
theorem page_one_indexed_beyond_404 (db : Db) (uid page : Nat) (q : String)
    (hp : 2 ≤ page)
    (hlen : (order_by_date_desc (search_filter db q (user_transactions db uid))).length ≤
      (page - 1) * 20) :
    transactions_route db uid page q = none ∧
    ∃ p, transactions_route db uid 1 q = some p ∧
      p.items = (order_by_date_desc (search_filter db q (user_transactions db uid))).take 20 ∧
      p.total = (order_by_date_desc (search_filter db q (user_transactions db uid))).length := by
  constructor
  · have hcond : ¬ page < 1 := by omega
    have hdrop : (order_by_date_desc (search_filter db q (user_transactions db uid))).drop
        ((page - 1) * 20) = [] := List.drop_eq_nil_of_le hlen
    have hne : (page != 1) = true := by
      simp only [bne_iff_ne, ne_eq]
      omega
    simp [transactions_route, paginate, hcond, hdrop, hne]
  · refine ⟨{ items := (order_by_date_desc (search_filter db q (user_transactions db uid))).take 20,
              page := 1, per_page := 20,
              total := (order_by_date_desc (search_filter db q (user_transactions db uid))).length },
            ?_, rfl, rfl⟩
    simp [transactions_route, paginate]

/-- Witness for the amended C7: on a one-transaction ledger page 2 is a
404 and page 1 carries the single transaction with total 1. -/
theorem page_one_indexed_beyond_404_witness :
    transactions_route db_c7 1 2 "" = none ∧
    ∃ p, transactions_route db_c7 1 1 "" = some p ∧
      p.items = (order_by_date_desc (search_filter db_c7 "" (user_transactions db_c7 1))).take 20 ∧
      p.total = (order_by_date_desc (search_filter db_c7 "" (user_transactions db_c7 1))).length :=
  page_one_indexed_beyond_404 db_c7 1 2 "" (by decide) (by decide)

theorem paginate_page1 (l : List Transaction) :
    paginate l 1 20 =
      some { items := l.take 20, page := 1, per_page := 20, total := l.length } := by
  simp [paginate]

theorem paginate_page2 (l : List Transaction) (h : 21 ≤ l.length) :
    paginate l 2 20 =
      some { items := (l.drop 20).take 20, page := 2, per_page := 20, total := l.length } := by
  have hpos : 0 < ((l.drop 20).take 20).length := by
    rw [List.length_take, List.length_drop]
    omega
  have hne : ((l.drop 20).take 20).isEmpty = false := by
    cases hE : (l.drop 20).take 20 with
    | nil => rw [hE] at hpos; simp at hpos
    | cons a t => rfl
  simp [paginate, hne]

theorem search_filter_sublist (db : Db) (q : String) (l : List Transaction) :
    (search_filter db q l).Sublist l := by
  rw [search_filter]
  split
  · exact List.Sublist.refl l
  · exact List.filter_sublist l

/-- C6: deterministic pagination.  The listing order is by date
descending (ties keep the stable secondary order of the underlying
scan), and on a ledger whose filtered result has at least 21 rows with
pairwise distinct primary keys, pages 1 and 2 (20 rows each) are
disjoint and their concatenation is exactly the first 40 rows of the
ordering. -/
theorem pagination_pages_disjoint (db : Db) (uid : Nat) (q : String)
    (hnodup : (db.transactions.map Transaction.id).Nodup)
    (hlen : 21 ≤ (order_by_date_desc (search_filter db q (user_transactions db uid))).length) :
    ∃ p1 p2,
      transactions_route db uid 1 q = some p1 ∧
      transactions_route db uid 2 q = some p2 ∧
      p1.items = (order_by_date_desc (search_filter db q (user_transactions db uid))).take 20 ∧
      p2.items =
        ((order_by_date_desc (search_filter db q (user_transactions db uid))).drop 20).take 20 ∧
      (∀ t ∈ p1.items, t ∉ p2.items) ∧
      p1.items ++ p2.items =
        (order_by_date_desc (search_filter db q (user_transactions db uid))).take 40 ∧
      List.Sorted date_desc (order_by_date_desc (search_filter db q (user_transactions db uid))) := by
  have hLnodup : (order_by_date_desc (search_filter db q (user_transactions db uid))).Nodup := by
    have hsub : (search_filter db q (user_transactions db uid)).Sublist db.transactions :=
      (search_filter_sublist db q _).trans (List.filter_sublist _)
    have h1 : ((search_filter db q (user_transactions db uid)).map Transaction.id).Nodup :=
      (hsub.map Transaction.id).nodup hnodup
    have hperm : ((order_by_date_desc (search_filter db q (user_transactions db uid))).map
        Transaction.id).Perm ((search_filter db q (user_transactions db uid)).map Transaction.id) :=
      (List.perm_insertionSort date_desc _).map Transaction.id
    exact List.Nodup.of_map Transaction.id (hperm.nodup_iff.mpr h1)
  have htake40 : (order_by_date_desc (search_filter db q (user_transactions db uid))).take 40 =
      (order_by_date_desc (search_filter db q (user_transactions db uid))).take 20 ++
      ((order_by_date_desc (search_filter db q (user_transactions db uid))).drop 20).take 20 := by
    have h4020 : (40 : Nat) = 20 + 20 := rfl
    rw [h4020, List.take_add]
  have hnd40 : ((order_by_date_desc (search_filter db q (user_transactions db uid))).take 40).Nodup :=
    (List.take_sublist 40 _).nodup hLnodup
  rw [htake40] at hnd40
  have hdisj := (List.nodup_append.mp hnd40).2.2
  refine ⟨{ items := (order_by_date_desc (search_filter db q (user_transactions db uid))).take 20,
            page := 1, per_page := 20,
            total := (order_by_date_desc (search_filter db q (user_transactions db uid))).length },
          { items := ((order_by_date_desc (search_filter db q (user_transactions db uid))).drop 20).take 20,
            page := 2, per_page := 20,
            total := (order_by_date_desc (search_filter db q (user_transactions db uid))).length },
          ?_, ?_, rfl, rfl, ?_, htake40.symm, ?_⟩
  · rw [transactions_route]
    exact paginate_page1 _
  · rw [transactions_route]
    exact paginate_page2 _ hlen
  · intro t ht hmem
    exact hdisj ht hmem
  · exact List.sorted_insertionSort date_desc _

/-- Transaction template for the pagination witness. -/
def mk_tx (i : Nat) : Transaction :=
  { id := i, amount := 1, type := "income", description := none,
    date := { year := 2024, month := 1, day := i % 28 + 1 },
    category_id := none, user_id := 1 }

/-- Ledger with 21 transactions of user 1 and pairwise distinct ids. -/
def db_c6 : Db := { categories := [], transactions := (List.range 21).map mk_tx }

/-- Witness for C6 on a 21-transaction ledger. -/
theorem pagination_pages_disjoint_witness :
    ∃ p1 p2,
      transactions_route db_c6 1 1 "" = some p1 ∧
      transactions_route db_c6 1 2 "" = some p2 ∧
      p1.items = (order_by_date_desc (search_filter db_c6 "" (user_transactions db_c6 1))).take 20 ∧
      p2.items =
        ((order_by_date_desc (search_filter db_c6 "" (user_transactions db_c6 1))).drop 20).take 20 ∧
      (∀ t ∈ p1.items, t ∉ p2.items) ∧
      p1.items ++ p2.items =
        (order_by_date_desc (search_filter db_c6 "" (user_transactions db_c6 1))).take 40 ∧
      List.Sorted date_desc (order_by_date_desc (search_filter db_c6 "" (user_transactions db_c6 1))) :=
  pagination_pages_disjoint db_c6 1 "" (by decide) (by decide)

theorem sum_ite_filter (l : List Transaction) (c : Transaction → Bool) :
    (l.map (fun t => if c t then t.amount else 0)).sum =
      ((l.filter c).map Transaction.amount).sum := by
  induction l with
  | nil => rfl
  | cons a l ih =>
    by_cases h : c a <;> simp [List.filter_cons, h, ih]

/-- C3: the monthly series has exactly one entry per calendar month
(YYYY-MM truncation of the date) occurring among the caller's
transactions, in strictly ascending order of period; each entry's
income and expense are the sums of the amounts of that month's
transactions of that type (0 when the month has none of that type,
since the sum of an empty list is 0), and a month with no transactions
contributes no entry. -/
theorem monthly_series_correct (db : Db) (uid : Nat) :
    ((api_summary db uid).map Prod.fst).Nodup ∧
    List.Sorted (fun a b => a < b) ((api_summary db uid).map Prod.fst) ∧
    (∀ k, k ∈ (api_summary db uid).map Prod.fst ↔
      ∃ t ∈ db.transactions.filter (fun t => t.user_id == uid), ym t.date = k) ∧
    (∀ e ∈ api_summary db uid,
      e.2.1 = (((db.transactions.filter (fun t => t.user_id == uid)).filter
        (fun t => t.type == "income" && ym t.date == e.1)).map Transaction.amount).sum ∧
      e.2.2 = (((db.transactions.filter (fun t => t.user_id == uid)).filter
        (fun t => t.type == "expense" && ym t.date == e.1)).map Transaction.amount).sum) := by
  have hfst : (api_summary db uid).map Prod.fst =
      (((db.transactions.filter (fun t => t.user_id == uid)).map
        (fun t => ym t.date)).dedup).insertionSort (fun a b => a ≤ b) := by
    rw [api_summary]
    rw [List.map_map]
    exact List.map_id'' (fun k => rfl) _
  have hperm : ((((db.transactions.filter (fun t => t.user_id == uid)).map
      (fun t => ym t.date)).dedup).insertionSort (fun a b => a ≤ b)).Perm
      (((db.transactions.filter (fun t => t.user_id == uid)).map
        (fun t => ym t.date)).dedup) :=
    List.perm_insertionSort _ _
  have hnodup : ((api_summary db uid).map Prod.fst).Nodup := by
    rw [hfst]
    exact hperm.nodup_iff.mpr (List.nodup_dedup _)
  refine ⟨hnodup, ?_, ?_, ?_⟩
  · have hsorted : List.Sorted (fun a b => a ≤ b) ((api_summary db uid).map Prod.fst) := by
      rw [hfst]
      exact List.sorted_insertionSort _ _
    exact hsorted.lt_of_le hnodup
  · intro k
    rw [hfst, hperm.mem_iff, List.mem_dedup, List.mem_map]
  · intro e he
    rw [api_summary, List.mem_map] at he
    rcases he with ⟨k, _, hk⟩
    rw [← hk]
    constructor
    · show ((((db.transactions.filter (fun t => t.user_id == uid)).filter
          (fun t => ym t.date == k)).map income_case).sum) = _
      rw [show income_case = (fun t => if t.type == "income" then t.amount else 0) from rfl]
      rw [sum_ite_filter, List.filter_filter]
    · show ((((db.transactions.filter (fun t => t.user_id == uid)).filter
          (fun t => ym t.date == k)).map expense_case).sum) = _
      rw [show expense_case = (fun t => if t.type == "expense" then t.amount else 0) from rfl]
      rw [sum_ite_filter, List.filter_filter]

/-- Witness for C3: the period list of the monthly series on a concrete
ledger has no duplicate month. -/
theorem monthly_series_correct_witness :
    ((api_summary db_dash 1).map Prod.fst).Nodup :=
  (monthly_series_correct db_dash 1).1

theorem forall2_row_map {α β : Type} (f : α → β) (l : List α) :
    List.Forall₂ (fun a b => b = f a) l (l.map f) := by
  induction l with
  | nil => exact List.Forall₂.nil
  | cons a l ih => exact List.Forall₂.cons rfl ih

/-- C8: the CSV export emits the header row
`Date,Type,Amount,Category,Description` and then exactly one row per
transaction of the caller's whole ledger (the route reads the full
ownership-scoped set: it has no page or filter parameter, so pagination
is ignored), in the `ORDER BY date DESC` order the query supplies; each
row renders the date as ISO `YYYY-MM-DD`, the category name as the
empty string when the reference is NULL or dangling, and the
description as the empty string when NULL.  `sA` is Python's external
float-to-text rendering of the amount. -/
theorem csv_export_full_ledger (db : Db) (sA : ℚ → String) (uid : Nat) :
    (export_csv db sA uid).head? =
      some ["Date", "Type", "Amount", "Category", "Description"] ∧
    (export_csv db sA uid).length = 1 + (user_transactions db uid).length ∧
    List.Forall₂ (fun t row =>
        row = [Date.isoformat t.date, t.type, sA t.amount,
          ((resolve_category db t).map Category.name).getD "",
          t.description.getD ""])
      (order_by_date_desc (user_transactions db uid))
      (export_csv db sA uid).tail ∧
    (∀ t : Transaction, resolve_category db t = none →
      csv_row db sA t =
        [Date.isoformat t.date, t.type, sA t.amount, "", t.description.getD ""]) ∧
    (∀ t : Transaction, t.description = none →
      csv_row db sA t =
        [Date.isoformat t.date, t.type, sA t.amount,
         ((resolve_category db t).map Category.name).getD "", ""]) := by
  refine ⟨rfl, ?_, ?_, ?_, ?_⟩
  · rw [export_csv]
    rw [List.length_cons, List.length_map]
    rw [order_by_date_desc]
    rw [(List.perm_insertionSort date_desc (user_transactions db uid)).length_eq]
    omega
  · rw [export_csv]
    exact forall2_row_map _ _
  · intro t h
    rw [csv_row, h]
    rfl
  · intro t h
    rw [csv_row, h]
    rfl

/-- Witness for C8: the header row of the export on a concrete ledger. -/
theorem csv_export_full_ledger_witness :
    (export_csv db_c9 (fun _ => "7.0") 1).head? =
      some ["Date", "Type", "Amount", "Category", "Description"] :=
  (csv_export_full_ledger db_c9 (fun _ => "7.0") 1).1

/-- Lowercase a character list (ASCII case folding, as SQL applies to
both sides of an ILIKE comparison). -/
def lower (l : List Char) : List Char := l.map Char.toLower

/-- Boolean list-prefix test. -/
def pfx : List Char → List Char → Bool
  | [], _ => true
  | _ :: _, [] => false
  | a :: n, c :: h => a == c && pfx n h

/-- Boolean contiguous-sublist test. -/
def substrb (n : List Char) : List Char → Bool
  | [] => n.isEmpty
  | c :: h => pfx n (c :: h) || substrb n h

/-- Specification-side notion used by the spec's sentence: the needle is
a case-insensitive substring of the haystack. -/
def ci_substr (n h : String) : Prop := substrb (lower n.data) (lower h.data) = true

instance (n h : String) : Decidable (ci_substr n h) :=
  inferInstanceAs (Decidable (substrb (lower n.data) (lower h.data) = true))

/-- Search term free of the SQL LIKE wildcards. -/
def wildcard_free (q : String) : Bool :=
  q.data.all (fun c => !(c == '%') && !(c == '_'))

theorem pfx_iff (n : List Char) : ∀ h, pfx n h = true ↔ ∃ s, h = n ++ s := by
  induction n with
  | nil =>
    intro h
    simp [pfx]
  | cons a n ih =>
    intro h
    cases h with
    | nil => simp [pfx]
    | cons c h2 =>
      rw [show pfx (a :: n) (c :: h2) = (a == c && pfx n h2) from rfl]
      rw [Bool.and_eq_true, beq_iff_eq, ih h2]
      constructor
      · rintro ⟨hac, s, hs⟩
        exact ⟨s, by rw [hac, hs, List.cons_append]⟩
      · rintro ⟨s, hs⟩
        rw [List.cons_append] at hs
        injection hs with h1 h2b
        exact ⟨h1.symm, s, h2b⟩

theorem substrb_iff (n : List Char) : ∀ h, substrb n h = true ↔ ∃ s1 s2, h = s1 ++ n ++ s2 := by
  intro h
  induction h with
  | nil =>
    rw [show substrb n [] = n.isEmpty from rfl]
    constructor
    · intro he
      refine ⟨[], [], ?_⟩
      rw [List.isEmpty_iff.mp he]
      rfl
    · rintro ⟨s1, s2, hs⟩
      have h1 : s1 = [] := by
        cases s1 with
        | nil => rfl
        | cons x xs => simp at hs
      rw [h1] at hs
      have h2 : n = [] := by
        cases n with
        | nil => rfl
        | cons x xs => simp at hs
      rw [h2]
      rfl
  | cons c h2 ih =>
    rw [show substrb n (c :: h2) = (pfx n (c :: h2) || substrb n h2) from rfl]
    rw [Bool.or_eq_true, pfx_iff, ih]
    constructor
    · rintro (⟨s, hs⟩ | ⟨s1, s2, hs⟩)
      · exact ⟨[], s, by rw [hs]; rfl⟩
      · exact ⟨c :: s1, s2, by rw [hs]; rfl⟩
    · rintro ⟨s1, s2, hs⟩
      cases s1 with
      | nil =>
        left
        exact ⟨s2, by simpa using hs⟩
      | cons x xs =>
        right
        rw [List.cons_append, List.cons_append] at hs
        injection hs with h1 h2b
        exact ⟨xs, s2, h2b⟩

theorem pctHelper_iff (f : List Char → Bool) :
    ∀ t, pctHelper f t = true ↔ ∃ t1 t2, t = t1 ++ t2 ∧ f t2 = true := by
  intro t
  induction t with
  | nil =>
    rw [show pctHelper f [] = f [] from rfl]
    constructor
    · intro hf
      exact ⟨[], [], rfl, hf⟩
    · rintro ⟨t1, t2, ht, hf⟩
      have h1 : t1 = [] := by
        cases t1 with
        | nil => rfl
        | cons x xs => simp at ht
      rw [h1] at ht
      simp only [List.nil_append] at ht
      rw [← ht] at hf
      exact hf
  | cons c t2 ih =>
    rw [show pctHelper f (c :: t2) = (f (c :: t2) || pctHelper f t2) from rfl]
    rw [Bool.or_eq_true, ih]
    constructor
    · rintro (hf | ⟨u1, u2, hu, hf⟩)
      · exact ⟨[], c :: t2, rfl, hf⟩
      · exact ⟨c :: u1, u2, by rw [hu]; rfl, hf⟩
    · rintro ⟨u1, u2, hu, hf⟩
      cases u1 with
      | nil =>
        left
        have : u2 = c :: t2 := by simpa using hu.symm
        rw [← this]
        exact hf
      | cons x xs =>
        right
        rw [List.cons_append] at hu
        injection hu with h1 h2b
        exact ⟨xs, u2, h2b, hf⟩

theorem like_ci_pct_unfold (p t : List Char) :
    like_ci ('%' :: p) t = pctHelper (like_ci p) t := rfl

theorem like_ci_all_pct (t : List Char) : like_ci ['%'] t = true := by
  rw [like_ci_pct_unfold]
  refine (pctHelper_iff _ t).mpr ⟨t, [], (List.append_nil t).symm, ?_⟩
  rfl

theorem like_ci_lit_pct (p : List Char) (hp : ∀ a ∈ p, ¬a = '%' ∧ ¬a = '_') :
    ∀ t, like_ci (p ++ ['%']) t = true ↔ ∃ s, lower t = lower p ++ s := by
  induction p with
  | nil =>
    intro t
    simp only [List.nil_append]
    constructor
    · intro _
      exact ⟨lower t, by rw [lower]; rfl⟩
    · intro _
      exact like_ci_all_pct t
  | cons a p ih =>
    intro t
    have ha := hp a (List.mem_cons_self a p)
    have hp2 : ∀ b ∈ p, ¬b = '%' ∧ ¬b = '_' := fun b hb => hp b (List.mem_cons_of_mem a hb)
    cases t with
    | nil =>
      rw [List.cons_append]
      rw [show like_ci (a :: (p ++ ['%'])) [] = false from by
        simp only [like_ci]; rw [if_neg ha.1]]
      simp [lower]
    | cons c t2 =>
      rw [List.cons_append]
      rw [show like_ci (a :: (p ++ ['%'])) (c :: t2) =
          ((a.toLower == c.toLower) && like_ci (p ++ ['%']) t2) from by
        simp only [like_ci]; rw [if_neg ha.1, if_neg ha.2]]
      rw [Bool.and_eq_true, beq_iff_eq, ih hp2 t2]
      rw [show lower (c :: t2) = c.toLower :: lower t2 from rfl]
      rw [show lower (a :: p) = a.toLower :: lower p from rfl]
      constructor
      · rintro ⟨hac, s, hs⟩
        exact ⟨s, by rw [hac, hs, List.cons_append]⟩
      · rintro ⟨s, hs⟩
        rw [List.cons_append] at hs
        injection hs with h1 h2b
        exact ⟨h1.symm, s, h2b⟩

/-- The route pattern `%q%` matches a text (case-insensitively) exactly
when the lowercased term occurs as a contiguous substring of the
lowercased text — provided the term contains no LIKE wildcard. -/
theorem ilike_substr (q : String) (hw : wildcard_free q = true) (t : List Char) :
    like_ci (search_pattern q) t = true ↔ substrb (lower q.data) (lower t) = true := by
  have hp : ∀ a ∈ q.data, ¬a = '%' ∧ ¬a = '_' := by
    intro a ha
    have := List.all_eq_true.mp hw a ha
    simpa using this
  rw [search_pattern]
  rw [like_ci_pct_unfold]
  rw [pctHelper_iff, substrb_iff]
  constructor
  · rintro ⟨t1, t2, ht, hf⟩
    rcases (like_ci_lit_pct q.data hp t2).mp hf with ⟨s, hs⟩
    refine ⟨lower t1, s, ?_⟩
    rw [ht, lower, List.map_append, ← lower, ← lower, hs, List.append_assoc]
  · rintro ⟨s1, s2, hs⟩
    refine ⟨t.take s1.length, t.drop s1.length, (List.take_append_drop _ t).symm, ?_⟩
    refine (like_ci_lit_pct q.data hp _).mpr ⟨s2, ?_⟩
    rw [lower, List.map_drop, ← lower, hs]
    rw [List.append_assoc] at hs ⊢
    exact List.drop_left s1 (lower q.data ++ s2)

/-- One branch at a time: the route's search predicate holds exactly
when the wildcard-free term is a case-insensitive substring of the
description, of the type label, or of the resolved category's name. -/
theorem matches_search_iff (db : Db) (q : String) (hw : wildcard_free q = true)
    (t : Transaction) :
    matches_search db q t = true ↔
      ((∃ d, t.description = some d ∧ ci_substr q d) ∨
       ci_substr q t.type ∨
       (∃ c, resolve_category db t = some c ∧ ci_substr q c.name)) := by
  rw [matches_search, Bool.or_assoc]
  simp only [Bool.or_eq_true]
  refine or_congr ?_ (or_congr ?_ ?_)
  · rw [description_matches]
    cases hd : t.description with
    | none => simp
    | some d =>
      rw [ilike_substr q hw]
      simp only [ci_substr, Option.some.injEq]
      constructor
      · intro h
        exact ⟨d, rfl, h⟩
      · rintro ⟨e, he, h⟩
        rw [← he] at h
        exact h
  · rw [ilike_substr q hw]
    rfl
  · cases hc : resolve_category db t with
    | none => simp
    | some c =>
      rw [ilike_substr q hw]
      simp only [ci_substr, Option.some.injEq]
      constructor
      · intro h
        exact ⟨c, rfl, h⟩
      · rintro ⟨e, he, h⟩
        rw [← he] at h
        exact h

/-- C5 amended: for a non-empty search term containing no LIKE wildcard
(`%`, `_`), the listing's filtered set consists exactly of the caller's
transactions for which the term is a case-insensitive substring of the
description, the type label, or the referenced category's name; a
transaction with no (or a dangling) category reference never matches
through the category branch (its resolved category is `none`), and a
term matching nothing yields page 1 empty with total 0.  (A term
containing `%` or `_` is instead interpreted as LIKE wildcards — see the
counterexample.) -/
theorem filter_ci_substring (db : Db) (uid : Nat) (q : String)
    (hq : q ≠ "") (hw : wildcard_free q = true) :
    (∀ t, t ∈ search_filter db q (user_transactions db uid) ↔
      t ∈ db.transactions ∧ t.user_id = uid ∧
        ((∃ d, t.description = some d ∧ ci_substr q d) ∨
         ci_substr q t.type ∨
         (∃ c, resolve_category db t = some c ∧ ci_substr q c.name))) ∧
    (search_filter db q (user_transactions db uid) = [] →
      transactions_route db uid 1 q =
        some { items := [], page := 1, per_page := 20, total := 0 }) := by
  have hqb : ¬((q == "") = true) := by simpa using hq
  constructor
  · intro t
    rw [search_filter, if_neg hqb]
    rw [List.mem_filter, user_transactions, List.mem_filter]
    rw [matches_search_iff db q hw t]
    simp [and_assoc]
  · intro hE
    rw [transactions_route, hE]
    decide

/-- The "Groceries run" transaction of the filter witness. -/
def tx_c5 : Transaction :=
  { id := 1, amount := 9, type := "income", description := some "Groceries run",
    date := { year := 2024, month := 1, day := 2 },
    category_id := none, user_id := 1 }

/-- Single-transaction ledger for the filter witness and counterexample. -/
def db_c5 : Db := { categories := [], transactions := [tx_c5] }

/-- Witness for C5 (amended): searching "grocer" (case-insensitively)
returns the "Groceries run" transaction. -/
theorem filter_ci_substring_witness :
    tx_c5 ∈ search_filter db_c5 "grocer" (user_transactions db_c5 1) :=
  ((filter_ci_substring db_c5 1 "grocer" (by decide) (by decide)).1 tx_c5).mpr
    ⟨by decide, by decide, Or.inl ⟨"Groceries run", rfl, by decide⟩⟩

/-- Counterexample to C5 as stated: the term "_" is not a substring of
any field of the "Groceries run" transaction, yet the listing returns
that transaction, because the raw term is interpolated into the LIKE
pattern and `_` is a single-character wildcard. -/
theorem filter_wildcard_cex :
    tx_c5 ∈ search_filter db_c5 "_" (user_transactions db_c5 1) ∧
    ¬ ((∃ d, tx_c5.description = some d ∧ ci_substr "_" d) ∨
       ci_substr "_" tx_c5.type ∨
       (∃ c, resolve_category db_c5 tx_c5 = some c ∧ ci_substr "_" c.name)) := by
  constructor
  · decide
  · rintro (⟨d, hd, hsub⟩ | hty | ⟨c, hc, hcs⟩)
    · have hd2 : d = "Groceries run" := by
        have h0 : some "Groceries run" = some d := hd
        injection h0 with h
        exact h.symm
      rw [hd2] at hsub
      exact absurd hsub (by decide)
    · exact absurd hty (by decide)
    · have h0 : resolve_category db_c5 tx_c5 = none := rfl
      rw [h0] at hc
      cases hc

/-- Cross-table ownership invariant: every transaction whose category
reference resolves to an existing category row points at a category of
its own user. -/
def cat_owner_inv (db : Db) : Prop :=
  ∀ t ∈ db.transactions, ∀ c ∈ db.categories,
    t.category_id = some c.id → c.user_id = t.user_id

instance (db : Db) : Decidable (cat_owner_inv db) :=
  inferInstanceAs (Decidable (∀ t ∈ db.transactions, ∀ c ∈ db.categories,
    t.category_id = some c.id → c.user_id = t.user_id))

/-- Referential-integrity strengthening of the ownership invariant:
every present category reference on a transaction points at an
existing category owned by the transaction's own user.  This predicate
is preserved by all five mutating operations below, and, on a category
table with distinct primary keys, it implies `cat_owner_inv`. -/
def cat_ref_inv (db : Db) : Prop :=
  ∀ t ∈ db.transactions, ∀ cid, t.category_id = some cid →
    ∃ c ∈ db.categories, c.id = cid ∧ c.user_id = t.user_id

theorem data_required_validates (db : Db) (uid : Nat) (f : TransactionForm)
    (hv : transaction_form_valid db uid f = true) :
    ∃ c0 ∈ db.categories, c0.id = f.category ∧ c0.user_id = uid := by
  have hany : (user_categories db uid).any (fun c => c.id == f.category) = true := by
    unfold transaction_form_valid at hv
    exact ((Bool.and_eq_true _ _).mp hv).2
  rcases List.any_eq_true.mp hany with ⟨c0, hc0, hid⟩
  rw [user_categories, List.mem_filter] at hc0
  exact ⟨c0, hc0.1, beq_iff_eq.mp hid, beq_iff_eq.mp hc0.2⟩

/-- C10: the ownership invariant — every Transaction whose category
reference is present points (when it resolves) at a Category of the
Transaction's own user — is kept by every operation.  Formally, the
referential-integrity invariant `cat_ref_inv` (each present reference
resolves to a same-owner category; references never dangle, because the
ORM nulls them on category delete) is preserved by transaction
create/update (the forms restrict the selectable category choices to
the caller's own categories, so a foreign category id fails SelectField
validation), category create (the fresh rowid cannot collide with any
live reference), category update and category delete; and on a category
table with distinct primary keys `cat_ref_inv` implies the claim's
ownership property `cat_owner_inv`. -/
theorem category_ownership_invariant (db : Db) (uid tid cid : Nat)
    (ft : TransactionForm) (fc : CategoryForm)
    (hn : (db.categories.map Category.id).Nodup)
    (hinv : cat_ref_inv db) :
    cat_owner_inv db ∧
    cat_ref_inv (add_transaction db uid ft) ∧
    (∀ db2, edit_transaction db uid tid ft = Response.ok db2 → cat_ref_inv db2) ∧
    cat_ref_inv (add_category db uid fc) ∧
    (∀ db2, edit_category db uid cid fc = Response.ok db2 → cat_ref_inv db2) ∧
    (∀ db2, delete_category db uid cid = Response.ok db2 → cat_ref_inv db2) := by
  refine ⟨?_, ?_, ?_, ?_, ?_, ?_⟩
  · intro t ht c hc hid
    rcases hinv t ht c.id hid with ⟨c0, hc0, hc0id, hc0uid⟩
    have hcc : c = c0 := List.inj_on_of_nodup_map hn hc hc0 hc0id.symm
    rw [hcc]
    exact hc0uid
  · rw [add_transaction]
    by_cases hv : transaction_form_valid db uid ft = true
    · rw [if_pos hv]
      intro t ht cid2 hid
      rcases List.mem_append.mp ht with h | h
      · exact hinv t h cid2 hid
      · have heq := List.mem_singleton.mp h
        rcases data_required_validates db uid ft hv with ⟨c0, hc0, hc0id, hc0uid⟩
        rw [heq] at hid
        simp only at hid
        by_cases h0 : (ft.category != 0) = true
        · rw [if_pos h0] at hid
          injection hid with hid2
          refine ⟨c0, hc0, by rw [hc0id, hid2], ?_⟩
          rw [heq]
          exact hc0uid
        · rw [if_neg h0] at hid
          cases hid
    · rw [if_neg hv]
      exact hinv
  · intro db2 hok
    rw [edit_transaction] at hok
    cases hfind : get_transaction db uid tid with
    | none => rw [hfind] at hok; cases hok
    | some t0 =>
      rw [hfind] at hok
      injection hok with hok2
      rw [← hok2]
      by_cases hv : transaction_form_valid db uid ft = true
      · rw [if_pos hv]
        intro t ht cid2 hid
        rcases List.mem_map.mp ht with ⟨u, hu, hmap⟩
        by_cases hcond : (u.id == tid && u.user_id == uid) = true
        · rw [if_pos hcond] at hmap
          rw [← hmap] at hid ⊢
          simp only at hid ⊢
          rcases data_required_validates db uid ft hv with ⟨c0, hc0, hc0id, hc0uid⟩
          by_cases h0 : (ft.category != 0) = true
          · rw [if_pos h0] at hid
            injection hid with hid2
            have huid : u.user_id = uid := beq_iff_eq.mp ((Bool.and_eq_true _ _).mp hcond).2
            exact ⟨c0, hc0, by rw [hc0id, hid2], by rw [hc0uid, huid]⟩
          · rw [if_neg h0] at hid
            cases hid
        · rw [if_neg hcond] at hmap
          rw [← hmap] at hid ⊢
          exact hinv u hu cid2 hid
      · rw [if_neg hv]
        exact hinv
  · rw [add_category]
    by_cases hv : category_form_valid fc = true
    · rw [if_pos hv]
      intro t ht cid2 hid
      rcases hinv t ht cid2 hid with ⟨c0, hc0, hc0id, hc0uid⟩
      exact ⟨c0, List.mem_append.mpr (Or.inl hc0), hc0id, hc0uid⟩
    · rw [if_neg hv]
      exact hinv
  · intro db2 hok
    rw [edit_category] at hok
    cases hfind : get_category db uid cid with
    | none => rw [hfind] at hok; cases hok
    | some c1 =>
      rw [hfind] at hok
      injection hok with hok2
      rw [← hok2]
      by_cases hv : category_form_valid fc = true
      · rw [if_pos hv]
        intro t ht cid2 hid
        rcases hinv t ht cid2 hid with ⟨c0, hc0, hc0id, hc0uid⟩
        refine ⟨if c0.id == cid && c0.user_id == uid then
            { c0 with name := fc.name } else c0,
          List.mem_map.mpr ⟨c0, hc0, rfl⟩, ?_, ?_⟩
        · by_cases hcnd : (c0.id == cid && c0.user_id == uid) = true
          · rw [if_pos hcnd]
            exact hc0id
          · rw [if_neg hcnd]
            exact hc0id
        · by_cases hcnd : (c0.id == cid && c0.user_id == uid) = true
          · rw [if_pos hcnd]
            exact hc0uid
          · rw [if_neg hcnd]
            exact hc0uid
      · rw [if_neg hv]
        exact hinv
  · intro db2 hok
    rw [delete_category] at hok
    cases hfind : get_category db uid cid with
    | none => rw [hfind] at hok; cases hok
    | some c1 =>
      rw [hfind] at hok
      injection hok with hok2
      rw [← hok2]
      intro t2 ht2 cid2 hid2
      rcases List.mem_map.mp ht2 with ⟨u, hu, hmap⟩
      by_cases hcu : (u.category_id == some c1.id) = true
      · rw [if_pos hcu] at hmap
        rw [← hmap] at hid2
        simp only at hid2
        cases hid2
      · rw [if_neg hcu] at hmap
        rw [← hmap] at hid2 ⊢
        rcases hinv u hu cid2 hid2 with ⟨c0, hc0, hc0id, hc0uid⟩
        have hne : ¬c0.id = c1.id := by
          intro hcc
          apply hcu
          rw [hid2, ← hcc, hc0id]
          simp
        refine ⟨c0, List.mem_filter.mpr ⟨hc0, ?_⟩, hc0id, hc0uid⟩
        simpa using hne

/-- Transaction of the C10 witness ledger: user 1 references their own
category 1. -/
def tx_c10w : Transaction :=
  { id := 1, amount := 6, type := "expense", description := none,
    date := { year := 2024, month := 3, day := 4 },
    category_id := some 1, user_id := 1 }

/-- Ledger for the C10 witness: user 1 owns category 1 and one
transaction referencing it. -/
def db_c10w : Db :=
  { categories := [{ id := 1, name := "Food", user_id := 1 }],
    transactions := [tx_c10w] }

/-- Form selecting the caller's own category 1. -/
def ft_c10w : TransactionForm :=
  { amount := some 2, type := "income", category := 1,
    date := { year := 2024, month := 3, day := 4 }, description := "pay" }

/-- Witness for C10: on a concrete ledger satisfying the invariant, the
ownership property holds. -/
theorem category_ownership_invariant_witness :
    cat_owner_inv db_c10w :=
  (category_ownership_invariant db_c10w 1 1 1 ft_c10w { name := "X" }
    (by decide)
    (by
      intro t ht cid hcid
      have ht2 : t = tx_c10w := List.mem_singleton.mp ht
      rw [ht2] at hcid
      have hcid1 : cid = 1 := by
        have h0 : some 1 = some cid := hcid
        injection h0 with h
        exact h.symm
      rw [ht2, hcid1]
      exact ⟨{ id := 1, name := "Food", user_id := 1 },
        List.mem_singleton.mpr rfl, rfl, rfl⟩)).1

end FinanceApp
